import Mathlib

/-!
Verification of the hawkBit ESP-IDF OTA client (src/hawkbit.h, src/hawkbit.cpp).

The development shallowly embeds the protocol-interpretation core of the
client: the JSON document model (an embedding of the ArduinoJson document
operations the code uses: clear, `operator[]` lookup with `| default`,
nested assignment, `serializeJson`), the action model (Artifact, Chunk,
Deployment, Stop, Registration, State), the poll interpreter `readState`,
the resource decoders `readDeployment` / `readCancel`, the feedback
composer `sendFeedback` and the eight `report*` operations,
`updateRegistration`, and the `download` template including its event
trace (begin / header / GET / handler / end).
-/

namespace Hawkbit

/-- A JSON document tree, the shape ArduinoJson's `JsonDocument` stages.
Numbers are integers: the client only ever reads integral `size` fields. -/
inductive Json where
  | null
  | str (s : String)
  | num (n : Int)
  | bool (b : Bool)
  | arr (elems : List Json)
  | obj (fields : List (String × Json))
deriving Repr, Inhabited

namespace Json

/-- `doc[key]` on a read: the first field named `key` of an object, `null`
when absent or when the value is not an object (ArduinoJson yields the
null variant in those cases). -/
def get (j : Json) (key : String) : Json :=
  match j with
  | .obj fields =>
    match fields.lookup key with
    | some v => v
    | none => .null
  | _ => .null

/-- `value | defaultString` on a read: the string when the value is a
string, otherwise the default (non-strings do not convert to `const char*`). -/
def asStrOr (j : Json) (d : String) : String :=
  match j with
  | .str s => s
  | _ => d

/-- `value | defaultInt` on a read: the number when the value is a number,
otherwise the default. -/
def asIntOr (j : Json) (d : Int) : Int :=
  match j with
  | .num n => n
  | _ => d

/-- Replace the value of the first field named `key`, or append the field
when absent: the write half of ArduinoJson's `doc[key] = v` on an object. -/
def setInFields (fields : List (String × Json)) (key : String) (v : Json) :
    List (String × Json) :=
  match fields with
  | [] => [(key, v)]
  | (k, w) :: rest =>
    if k = key then (k, v) :: rest
    else (k, w) :: setInFields rest key v

/-- `doc[key] = v`: sets the field on an object; on any other variant the
assignment first turns the slot into an object (ArduinoJson converts the
slot when written through). -/
def setField (j : Json) (key : String) (v : Json) : Json :=
  match j with
  | .obj fields => .obj (setInFields fields key v)
  | _ => .obj [(key, v)]

/-- `doc[k1][k2] = v`: nested assignment creating the intermediate object
as needed. -/
def set2 (j : Json) (k1 k2 : String) (v : Json) : Json :=
  j.setField k1 ((j.get k1).setField k2 v)

/-- `doc[k1][k2][k3] = v`: two levels of implicit object creation. -/
def set3 (j : Json) (k1 k2 k3 : String) (v : Json) : Json :=
  j.setField k1 ((j.get k1).setField k2 (((j.get k1).get k2).setField k3 v))

end Json

/-- The escaping `serializeJson` applies inside string literals. -/
def escapeChar (c : Char) : String :=
  if c = '"' then "\\\""
  else if c = '\\' then "\\\\"
  else if c = '\n' then "\\n"
  else if c = '\r' then "\\r"
  else if c = '\t' then "\\t"
  else if c = Char.ofNat 8 then "\\b"
  else if c = Char.ofNat 12 then "\\f"
  else String.singleton c

/-- Escape a whole string for emission inside a JSON string literal. -/
def jsonEscape (s : String) : String :=
  s.data.foldl (fun acc c => acc ++ escapeChar c) ""

mutual

/-- `serializeJson`: the compact (no whitespace) rendering ArduinoJson
produces. -/
def Json.serialize : Json → String
  | .null => "null"
  | .str s => "\"" ++ jsonEscape s ++ "\""
  | .num n => toString n
  | .bool b => if b then "true" else "false"
  | .arr elems => "[" ++ Json.serializeArr elems ++ "]"
  | .obj fields => "\x7b" ++ Json.serializeObj fields ++ "\x7d"

/-- Comma-separated rendering of array elements. -/
def Json.serializeArr : List Json → String
  | [] => ""
  | [x] => Json.serialize x
  | x :: y :: rest => Json.serialize x ++ "," ++ Json.serializeArr (y :: rest)

/-- Comma-separated rendering of object members. -/
def Json.serializeObj : List (String × Json) → String
  | [] => ""
  | [(k, v)] => "\"" ++ jsonEscape k ++ "\":" ++ Json.serialize v
  | (k, v) :: m :: rest =>
    "\"" ++ jsonEscape k ++ "\":" ++ Json.serialize v ++ "," ++
      Json.serializeObj (m :: rest)

end

/-- An artifact of a chunk (class Artifact, src/hawkbit.h). `hashes` and
`links` carry the entries of the two `std::map<std::string,std::string>`
members. -/
structure Artifact where
  filename : String
  size : Int
  hashes : List (String × String)
  links : List (String × String)
deriving Repr, DecidableEq, Inhabited

/-- One software chunk of a deployment (class Chunk, src/hawkbit.h). -/
structure Chunk where
  part : String
  version : String
  name : String
  artifacts : List Artifact
deriving Repr, DecidableEq, Inhabited

/-- A deployment action (class Deployment, src/hawkbit.h). -/
structure Deployment where
  id : String
  download : String
  update : String
  chunks : List Chunk
deriving Repr, DecidableEq, Inhabited

/-- A cancel action (class Stop, src/hawkbit.h). -/
structure Stop where
  id : String
deriving Repr, DecidableEq, Inhabited

/-- A registration request target (class Registration, src/hawkbit.h). -/
structure Registration where
  url : String
deriving Repr, DecidableEq, Inhabited

/-- The poll result (class State, src/hawkbit.h): the NONE, REGISTER,
UPDATE and CANCEL variants with the payload each constructor stores. -/
inductive State where
  | none
  | register (registration : Registration)
  | update (deployment : Deployment)
  | cancel (stop : Stop)
deriving Repr, DecidableEq, Inhabited

/-- The session configuration fixed by the HawkbitClient constructor. -/
structure HawkbitClient where
  baseUrl : String
  tenantName : String
  controllerId : String
  authToken : String
deriving Repr, DecidableEq, Inhabited

/-- The constructor (src/hawkbit.cpp line 87): stores the configuration and
derives the Authorization header value from the security token. -/
def HawkbitClient.make (baseUrl tenantName controllerId securityToken : String) :
    HawkbitClient :=
  { baseUrl := baseUrl, tenantName := tenantName, controllerId := controllerId,
    authToken := "TargetToken " ++ securityToken }

/-- HTTP methods the client uses. -/
inductive HttpMethod where
  | get
  | post
  | put
deriving Repr, DecidableEq, Inhabited

/-- One composed HTTP request: method, target URL, headers in the order
they are set, and the POST/PUT payload when one is staged. -/
structure Request where
  method : HttpMethod
  url : String
  headers : List (String × String)
  body : Option String
deriving Repr, DecidableEq, Inhabited

/-- HawkbitClient::initHttpHandle (src/hawkbit.cpp line 107): creates a
handle for the given method and URL and sets the Accept, Content-Type and
Authorization headers on it. -/
def initHttpHandle (c : HawkbitClient) (method : HttpMethod) (url : String) :
    Request :=
  { method := method, url := url,
    headers := [("Accept", "application/hal+json"),
                ("Content-Type", "application/json"),
                ("Authorization", c.authToken)],
    body := Option.none }

/-- Assignment through std::map operator[]: replace the value bound to an
existing key, insert the binding otherwise. (The sorted iteration order
of std::map is not observed by any modelled operation.) -/
def stdMapInsert (m : List (String × String)) (k v : String) :
    List (String × String) :=
  match m with
  | [] => [(k, v)]
  | (k0, v0) :: rest =>
    if k0 = k then (k0, v) :: rest
    else (k0, v0) :: stdMapInsert rest k v

/-- toMap (src/hawkbit.cpp line 224): copies into a string map exactly
those members of the JSON object whose value is a string, skipping every
other member. A non-object argument iterates as an empty JsonObject. -/
def toMap (j : Json) : List (String × String) :=
  match j with
  | .obj fields =>
    fields.foldl
      (fun m p =>
        match p.2 with
        | .str s => stdMapInsert m p.1 s
        | _ => m)
      []
  | _ => []

/-- toLinks (src/hawkbit.cpp line 234): maps each member of a `_links`
object to the string under its `href` sub-field. (In the source a missing
or non-string `href` yields a null `const char*` passed to the
std::string constructor; it is modelled as the empty string.) -/
def toLinks (j : Json) : List (String × String) :=
  match j with
  | .obj fields =>
    fields.foldl (fun m p => stdMapInsert m p.1 ((p.2.get "href").asStrOr "")) []
  | _ => []

/-- Decoding of one artifact object (src/hawkbit.cpp line 248): filename,
size with default 0, the string-valued hashes, and the href links. -/
def artifactOfJson (o : Json) : Artifact :=
  { filename := (o.get "filename").asStrOr ""
    size := (o.get "size").asIntOr 0
    hashes := toMap (o.get "hashes")
    links := toLinks (o.get "_links") }

/-- artifacts (src/hawkbit.cpp line 244): decodes each element of the
artifact array in order. -/
def artifacts (j : Json) : List Artifact :=
  match j with
  | .arr elems => elems.map artifactOfJson
  | _ => []

/-- Decoding of one chunk object (src/hawkbit.cpp line 267). -/
def chunkOfJson (o : Json) : Chunk :=
  { part := (o.get "part").asStrOr ""
    version := (o.get "version").asStrOr ""
    name := (o.get "name").asStrOr ""
    artifacts := artifacts (o.get "artifacts") }

/-- chunks (src/hawkbit.cpp line 261): decodes each element of the chunk
array in order. -/
def chunks (j : Json) : List Chunk :=
  match j with
  | .arr elems => elems.map chunkOfJson
  | _ => []

/-- The observable outcome of one transport round-trip: whether
esp_http_client_perform returned ESP_OK, the status code, and the bytes
accumulated in the resultPayload buffer. -/
structure HttpResponse where
  performOk : Bool
  status : Int
  payload : String
deriving Repr, DecidableEq, Inhabited

/-- The document staged in `_doc` after a fetch (the shared shape of
readState / readDeployment / readCancel, src/hawkbit.cpp): the document is
cleared first; the payload is deserialized only when the transport call
succeeded with status 200; a deserialization failure is silently swallowed
(the throw is commented out) and leaves the cleared document in place.
`parse` is the external codec collaborator (deserializeJson). -/
def fetchDoc (parse : String → Option Json) (resp : HttpResponse) : Json :=
  if resp.performOk && resp.status == 200 then
    match parse resp.payload with
    | some j => j
    | none => Json.null
  else
    Json.null

/-- HawkbitClient::readDeployment (src/hawkbit.cpp line 279): GET the
href, stage the document, then decode id, deployment.download,
deployment.update and deployment.chunks. It returns a Deployment in every
case, the decode-error and transport-error cases included. -/
def readDeployment (parse : String → Option Json) (resp : HttpResponse) :
    Deployment :=
  let doc := fetchDoc parse resp
  { id := (doc.get "id").asStrOr ""
    download := ((doc.get "deployment").get "download").asStrOr ""
    update := ((doc.get "deployment").get "update").asStrOr ""
    chunks := chunks ((doc.get "deployment").get "chunks") }

/-- HawkbitClient::readCancel (src/hawkbit.cpp line 313): GET the href,
stage the document, then decode cancelAction.stopId with default empty
string. It returns a Stop in every case. -/
def readCancel (parse : String → Option Json) (resp : HttpResponse) : Stop :=
  let doc := fetchDoc parse resp
  { id := ((doc.get "cancelAction").get "stopId").asStrOr "" }

/-- The link read the poll interpreter performs for one relation:
`_doc["_links"][rel]["href"] | ""` (src/hawkbit.cpp lines 198, 204, 210). -/
def linkHref (doc : Json) (rel : String) : String :=
  (((doc.get "_links").get rel).get "href").asStrOr ""

/-- The link-priority interpretation of a staged poll document
(src/hawkbit.cpp lines 198-221): deploymentBase first, then configData,
then cancelAction, an empty href falling through to the next check; the
NONE state when no relation carries a non-empty link. The two fetching
branches go through the supplied fetch collaborators (readDeployment and
readCancel in the source). -/
def readStateFromDoc (doc : Json) (fetchDeployment : String → Deployment)
    (fetchCancel : String → Stop) : State :=
  let href1 := linkHref doc "deploymentBase"
  if href1 ≠ "" then State.update (fetchDeployment href1)
  else
    let href2 := linkHref doc "configData"
    if href2 ≠ "" then State.register { url := href2 }
    else
      let href3 := linkHref doc "cancelAction"
      if href3 ≠ "" then State.cancel (fetchCancel href3)
      else State.none

/-- HawkbitClient::readState (src/hawkbit.cpp line 172): poll the base
resource; on transport failure return the NONE state, otherwise stage the
document (cleared unless status 200 and the payload parses) and interpret
its links. -/
def readState (parse : String → Option Json) (resp : HttpResponse)
    (fetchDeployment : String → Deployment) (fetchCancel : String → Stop) :
    State :=
  if resp.performOk then
    readStateFromDoc (fetchDoc parse resp) fetchDeployment fetchCancel
  else
    State.none

/-- The URL of the base poll resource (src/hawkbit.cpp line 174). -/
def pollUrl (c : HawkbitClient) : String :=
  c.baseUrl ++ "/" ++ c.tenantName ++ "/controller/v1/" ++ c.controllerId

/-- The request readState issues for the base poll resource. -/
def readStateRequest (c : HawkbitClient) : Request :=
  initHttpHandle c .get (pollUrl c)

/-- The request readDeployment issues for a deployment href. -/
def readDeploymentRequest (c : HawkbitClient) (href : String) : Request :=
  initHttpHandle c .get href

/-- The request readCancel issues for a cancelAction href. -/
def readCancelRequest (c : HawkbitClient) (href : String) : Request :=
  initHttpHandle c .get href

/-- HawkbitClient::feedbackUrl for a Deployment (src/hawkbit.cpp line 348). -/
def feedbackUrlDeployment (c : HawkbitClient) (d : Deployment) : String :=
  c.baseUrl ++ "/" ++ c.tenantName ++ "/controller/v1/" ++ c.controllerId ++
    "/deploymentBase/" ++ d.id ++ "/feedback"

/-- HawkbitClient::feedbackUrl for a Stop (src/hawkbit.cpp line 353). -/
def feedbackUrlStop (c : HawkbitClient) (s : Stop) : String :=
  c.baseUrl ++ "/" ++ c.tenantName ++ "/controller/v1/" ++ c.controllerId ++
    "/cancelAction/" ++ s.id ++ "/feedback"

/-- The document HawkbitClient::sendFeedback stages in `_doc`
(src/hawkbit.cpp lines 361-371): id, then status.details, then
status.execution, then status.result.finished, through the nested
ArduinoJson assignments in that order. -/
def sendFeedbackBody (idStr execution finished : String)
    (details : List String) : Json :=
  let doc := Json.null
  let doc := doc.setField "id" (.str idStr)
  let doc := doc.set2 "status" "details" (.arr (details.map .str))
  let doc := doc.set2 "status" "execution" (.str execution)
  let doc := doc.set3 "status" "result" "finished" (.str finished)
  doc

/-- HawkbitClient::sendFeedback instantiated at a Deployment id provider:
the composed POST request to the deployment feedback URL, paired with the
document left staged in `_doc`. -/
def sendFeedbackDeployment (c : HawkbitClient) (d : Deployment)
    (execution finished : String) (details : List String) : Request × Json :=
  let body := sendFeedbackBody d.id execution finished details
  ({ initHttpHandle c .post (feedbackUrlDeployment c d) with
      body := some body.serialize },
   body)

/-- HawkbitClient::sendFeedback instantiated at a Stop id provider: the
composed POST request to the cancelAction feedback URL, paired with the
document left staged in `_doc`. -/
def sendFeedbackStop (c : HawkbitClient) (s : Stop)
    (execution finished : String) (details : List String) : Request × Json :=
  let body := sendFeedbackBody s.id execution finished details
  ({ initHttpHandle c .post (feedbackUrlStop c s) with
      body := some body.serialize },
   body)

/-- HawkbitClient::reportProgress (src/hawkbit.cpp line 399): proceeding
with outcome none; done and total are accepted and never used. -/
def reportProgress (c : HawkbitClient) (d : Deployment) (done total : Nat)
    (details : List String) : Request × Json :=
  sendFeedbackDeployment c d "proceeding" "none" details

/-- HawkbitClient::reportScheduled (src/hawkbit.cpp line 409). -/
def reportScheduled (c : HawkbitClient) (d : Deployment)
    (details : List String) : Request × Json :=
  sendFeedbackDeployment c d "scheduled" "none" details

/-- HawkbitClient::reportResumed (src/hawkbit.cpp line 419). -/
def reportResumed (c : HawkbitClient) (d : Deployment)
    (details : List String) : Request × Json :=
  sendFeedbackDeployment c d "resumed" "none" details

/-- HawkbitClient::reportComplete (src/hawkbit.cpp line 429): closed, with
outcome success or failure according to the success flag. -/
def reportComplete (c : HawkbitClient) (d : Deployment) (success : Bool)
    (details : List String) : Request × Json :=
  sendFeedbackDeployment c d "closed" (if success then "success" else "failure")
    details

/-- HawkbitClient::reportCanceled (src/hawkbit.cpp line 439). -/
def reportCanceled (c : HawkbitClient) (d : Deployment)
    (details : List String) : Request × Json :=
  sendFeedbackDeployment c d "canceled" "none" details

/-- HawkbitClient::reportCancelAccepted (src/hawkbit.cpp line 449). -/
def reportCancelAccepted (c : HawkbitClient) (s : Stop)
    (details : List String) : Request × Json :=
  sendFeedbackStop c s "closed" "success" details

/-- HawkbitClient::reportCancelRejected (src/hawkbit.cpp line 459). -/
def reportCancelRejected (c : HawkbitClient) (s : Stop)
    (details : List String) : Request × Json :=
  sendFeedbackStop c s "closed" "failure" details

/-- The merge modes of HawkbitClient::updateRegistration. -/
inductive MergeMode where
  | merge
  | replace
  | remove
deriving Repr, DecidableEq, Inhabited

/-- The string the switch in updateRegistration writes into the mode
field (src/hawkbit.cpp lines 122-132). -/
def mergeModeString (m : MergeMode) : String :=
  match m with
  | .merge => "merge"
  | .replace => "replace"
  | .remove => "remove"

/-- The document HawkbitClient::updateRegistration stages in `_doc`
(src/hawkbit.cpp lines 120-145): the mode switch, the created data object
filled entry by entry from the supplied map, then status.details,
status.execution and status.result.finished. -/
def updateRegistrationBody (data : List (String × String)) (mode : MergeMode)
    (details : List String) : Json :=
  let doc := Json.null
  let doc := doc.setField "mode" (.str (mergeModeString mode))
  let doc := doc.setField "data" (.obj [])
  let doc := data.foldl
    (fun d e => d.setField "data" ((d.get "data").setField e.1 (.str e.2))) doc
  let doc := doc.set2 "status" "details" (.arr (details.map .str))
  let doc := doc.set2 "status" "execution" (.str "closed")
  let doc := doc.set3 "status" "result" "finished" (.str "success")
  doc

/-- HawkbitClient::updateRegistration (src/hawkbit.cpp line 118): the
composed PUT request to the registration URL, paired with the staged
document. `data` carries the entries of the supplied std::map in its
iteration order. -/
def updateRegistration (c : HawkbitClient) (registration : Registration)
    (data : List (String × String)) (mode : MergeMode)
    (details : List String) : Request × Json :=
  let body := updateRegistrationBody data mode details
  ({ initHttpHandle c .put registration.url with body := some body.serialize },
   body)

/-- The observable transport events of HawkbitClient::download
(src/hawkbit.h lines 326-351), in program order. -/
inductive DownloadEvent where
  | httpBegin (url : String)
  | addHeader (key value : String)
  | httpGet
  | handlerInvoked
  | httpEnd
deriving Repr, DecidableEq, Inhabited

/-- How a download call ends: normally, by the missing-link throw, by an
exception escaping the handler, or by the DownloadError throw. -/
inductive DownloadOutcome (E : Type) where
  | ok
  | missingLink
  | handlerRaised (e : E)
  | downloadFailed (code : Int)
deriving Repr, DecidableEq, Inhabited

/-- HawkbitClient::download (src/hawkbit.h line 326), as the pair of its
transport-event trace and its outcome. The link is looked up first and a
missing relation throws before any transport call. Otherwise the handle is
begun on the mapped URL, the Authorization header is added and the GET is
performed. On status 200 the handler runs on the stream; the source has no
try block around it, so an exception from the handler propagates before
the end call. On any other status the handle is ended and then
DownloadError(code) is thrown, the handler never having run.
`handlerResult` is how the supplied handler behaves on the stream. -/
def download (c : HawkbitClient) (artifact : Artifact) (linkType : String)
    (getCode : Int) (handlerResult : Except E Unit) :
    List DownloadEvent × DownloadOutcome E :=
  match artifact.links.lookup linkType with
  | some href =>
    let evs := [DownloadEvent.httpBegin href,
                DownloadEvent.addHeader "Authorization" c.authToken,
                DownloadEvent.httpGet]
    if getCode = 200 then
      match handlerResult with
      | .ok _ => (evs ++ [DownloadEvent.handlerInvoked, DownloadEvent.httpEnd],
                  DownloadOutcome.ok)
      | .error e => (evs ++ [DownloadEvent.handlerInvoked],
                     DownloadOutcome.handlerRaised e)
    else
      (evs ++ [DownloadEvent.httpEnd], DownloadOutcome.downloadFailed getCode)
  | _ => ([], DownloadOutcome.missingLink)

/-- The single-argument download overload (src/hawkbit.h line 320):
delegates with the default relation name. -/
def downloadDefault (c : HawkbitClient) (artifact : Artifact) (getCode : Int)
    (handlerResult : Except E Unit) :
    List DownloadEvent × DownloadOutcome E :=
  download c artifact "download" getCode handlerResult

/-- A request carries the given header. -/
def carriesHeader (r : Request) (k v : String) : Prop :=
  (k, v) ∈ r.headers

/-- A request carries all three headers initHttpHandle sets. -/
def carriesStandardHeaders (c : HawkbitClient) (r : Request) : Prop :=
  carriesHeader r "Accept" "application/hal+json" ∧
  carriesHeader r "Content-Type" "application/json" ∧
  carriesHeader r "Authorization" c.authToken

/-! ### Helper lemmas about the document embedding -/

theorem lookup_setInFields_self (fields : List (String × Json)) (k : String)
    (v : Json) : (Json.setInFields fields k v).lookup k = some v := by
  induction fields with
  | nil => simp [Json.setInFields]
  | cons p rest ih =>
    obtain ⟨k0, v0⟩ := p
    by_cases h : k0 = k
    · subst h
      simp [Json.setInFields]
    · simp only [Json.setInFields, if_neg h, List.lookup_cons]
      rw [show (k == k0) = false from beq_eq_false_iff_ne.mpr (Ne.symm h)]
      exact ih

theorem lookup_setInFields_ne (fields : List (String × Json)) (k k' : String)
    (v : Json) (h : k ≠ k') :
    (Json.setInFields fields k v).lookup k' = fields.lookup k' := by
  induction fields with
  | nil =>
    simp only [Json.setInFields, List.lookup_cons, List.lookup_nil]
    rw [show (k' == k) = false from beq_eq_false_iff_ne.mpr (Ne.symm h)]
  | cons p rest ih =>
    obtain ⟨k0, v0⟩ := p
    by_cases h0 : k0 = k
    · subst h0
      have hb : (k' == k0) = false := beq_eq_false_iff_ne.mpr (Ne.symm h)
      simp [Json.setInFields, List.lookup_cons, hb]
    · simp only [Json.setInFields, if_neg h0, List.lookup_cons]
      cases hbeq : (k' == k0) with
      | true => rfl
      | false => exact ih

theorem setInFields_setInFields_self (fields : List (String × Json))
    (k : String) (v w : Json) :
    Json.setInFields (Json.setInFields fields k v) k w =
      Json.setInFields fields k w := by
  induction fields with
  | nil => simp [Json.setInFields]
  | cons p rest ih =>
    obtain ⟨k0, v0⟩ := p
    by_cases h : k0 = k
    · subst h
      simp [Json.setInFields]
    · simp [Json.setInFields, if_neg h, ih]

theorem setInFields_fresh (fields : List (String × Json)) (k : String)
    (v : Json) (h : fields.lookup k = Option.none) :
    Json.setInFields fields k v = fields ++ [(k, v)] := by
  induction fields with
  | nil => simp [Json.setInFields]
  | cons p rest ih =>
    obtain ⟨k0, v0⟩ := p
    rw [List.lookup_cons] at h
    by_cases h0 : k0 = k
    · rw [show (k == k0) = true from beq_iff_eq.mpr h0.symm] at h
      simp at h
    · rw [show (k == k0) = false from beq_eq_false_iff_ne.mpr (Ne.symm h0)] at h
      simp [Json.setInFields, if_neg h0, ih h]

theorem get_setField_self (j : Json) (k : String) (v : Json) :
    (j.setField k v).get k = v := by
  cases j <;> simp [Json.setField, Json.get, lookup_setInFields_self]

theorem get_setField_ne (j : Json) (k k' : String) (v : Json) (h : k ≠ k') :
    (j.setField k v).get k' = j.get k' := by
  cases j <;>
    simp only [Json.setField, Json.get, lookup_setInFields_ne _ _ _ _ h,
      List.lookup_cons, List.lookup_nil]
  all_goals
    rw [show (k' == k) = false from beq_eq_false_iff_ne.mpr (Ne.symm h)]

theorem setField_setField_self (j : Json) (k : String) (v w : Json) :
    (j.setField k v).setField k w = j.setField k w := by
  cases j <;> simp [Json.setField, Json.setInFields,
    setInFields_setInFields_self]

theorem lookup_append_of_none {α β : Type} [BEq α] (l₁ l₂ : List (α × β))
    (k : α) (h : l₁.lookup k = Option.none) :
    (l₁ ++ l₂).lookup k = l₂.lookup k := by
  induction l₁ with
  | nil => simp
  | cons p rest ih =>
    obtain ⟨k0, v0⟩ := p
    rw [List.lookup_cons] at h
    cases hbeq : (k == k0) with
    | true =>
      rw [hbeq] at h
      simp at h
    | false =>
      rw [hbeq] at h
      simp only [List.cons_append, List.lookup_cons, hbeq]
      exact ih h

theorem stdMapInsert_fresh (m : List (String × String)) (k v : String)
    (h : m.lookup k = Option.none) : stdMapInsert m k v = m ++ [(k, v)] := by
  induction m with
  | nil => simp [stdMapInsert]
  | cons p rest ih =>
    obtain ⟨k0, v0⟩ := p
    rw [List.lookup_cons] at h
    by_cases h0 : k0 = k
    · rw [show (k == k0) = true from beq_iff_eq.mpr h0.symm] at h
      simp at h
    · rw [show (k == k0) = false from beq_eq_false_iff_ne.mpr (Ne.symm h0)] at h
      simp [stdMapInsert, if_neg h0, ih h]

/-- Writing the data entries through `doc["data"][key] = value` is the same
as folding them into the data slot alone: the outer document is written at
the same field every iteration. -/
theorem foldl_setField_data (entries : List (String × String)) (j o : Json) :
    entries.foldl
      (fun d e => d.setField "data" ((d.get "data").setField e.1 (.str e.2)))
      (j.setField "data" o) =
    j.setField "data"
      (entries.foldl (fun acc e => acc.setField e.1 (.str e.2)) o) := by
  induction entries generalizing o with
  | nil => rfl
  | cons e rest ih =>
    simp only [List.foldl_cons, get_setField_self, setField_setField_self]
    exact ih (o.setField e.1 (.str e.2))

/-- Folding fresh, pairwise-distinct keys into an object appends the
bindings in order. -/
theorem foldl_setField_fresh (entries : List (String × String))
    (fs : List (String × Json)) (hnd : (entries.map Prod.fst).Nodup)
    (hfresh : ∀ e ∈ entries, fs.lookup e.1 = Option.none) :
    entries.foldl (fun acc e => acc.setField e.1 (.str e.2)) (Json.obj fs) =
      Json.obj (fs ++ entries.map fun e => (e.1, Json.str e.2)) := by
  induction entries generalizing fs with
  | nil => simp
  | cons e rest ih =>
    obtain ⟨k, v⟩ := e
    have hstep : (Json.obj fs).setField k (Json.str v) =
        Json.obj (fs ++ [(k, Json.str v)]) := by
      simp only [Json.setField]
      rw [setInFields_fresh fs k (Json.str v)
        (hfresh (k, v) (List.mem_cons_self _ _))]
    rw [List.map_cons, List.nodup_cons] at hnd
    rw [List.foldl_cons, hstep, ih (fs ++ [(k, Json.str v)]) hnd.2]
    · simp
    · intro p hp
      rw [lookup_append_of_none _ _ _ (hfresh p (List.mem_cons_of_mem _ hp))]
      have hne : p.1 ≠ k := by
        intro hcontra
        have hmem : p.1 ∈ List.map Prod.fst rest :=
          List.mem_map_of_mem Prod.fst hp
        rw [hcontra] at hmem
        exact hnd.1 hmem
      simp [List.lookup_cons, beq_eq_false_iff_ne.mpr hne]

/-- Folding the members of an object through the string-filtering map
insertion appends exactly the string-valued bindings, when the keys are
pairwise distinct and fresh for the accumulator. -/
theorem toMap_foldl (fields : List (String × Json))
    (m : List (String × String)) (hnd : (fields.map Prod.fst).Nodup)
    (hfresh : ∀ p ∈ fields, m.lookup p.1 = Option.none) :
    fields.foldl
      (fun acc p =>
        match p.2 with
        | .str s => stdMapInsert acc p.1 s
        | _ => acc)
      m =
    m ++ fields.filterMap fun p =>
      match p.2 with
      | .str s => some (p.1, s)
      | _ => none := by
  induction fields generalizing m with
  | nil => simp
  | cons p rest ih =>
    obtain ⟨k, v⟩ := p
    rw [List.map_cons, List.nodup_cons] at hnd
    cases v with
    | str s =>
      simp only [List.foldl_cons, List.filterMap_cons]
      rw [stdMapInsert_fresh m k s (hfresh (k, .str s) (List.mem_cons_self _ _))]
      rw [ih (m ++ [(k, s)]) hnd.2]
      · simp
      · intro q hq
        rw [lookup_append_of_none _ _ _ (hfresh q (List.mem_cons_of_mem _ hq))]
        have hne : q.1 ≠ k := by
          intro hcontra
          have hmem : q.1 ∈ List.map Prod.fst rest :=
            List.mem_map_of_mem Prod.fst hq
          rw [hcontra] at hmem
          exact hnd.1 hmem
        simp [List.lookup_cons, beq_eq_false_iff_ne.mpr hne]
    | null =>
      simp only [List.foldl_cons, List.filterMap_cons]
      exact ih m hnd.2 fun q hq => hfresh q (List.mem_cons_of_mem _ hq)
    | num n =>
      simp only [List.foldl_cons, List.filterMap_cons]
      exact ih m hnd.2 fun q hq => hfresh q (List.mem_cons_of_mem _ hq)
    | bool b =>
      simp only [List.foldl_cons, List.filterMap_cons]
      exact ih m hnd.2 fun q hq => hfresh q (List.mem_cons_of_mem _ hq)
    | arr elems =>
      simp only [List.foldl_cons, List.filterMap_cons]
      exact ih m hnd.2 fun q hq => hfresh q (List.mem_cons_of_mem _ hq)
    | obj ofs =>
      simp only [List.foldl_cons, List.filterMap_cons]
      exact ih m hnd.2 fun q hq => hfresh q (List.mem_cons_of_mem _ hq)

/-! ### Claim theorems -/

/-- C1: for every poll-response document, readState returns the variant
selected by first-match priority over the link relations in the order
deploymentBase, configData, cancelAction; a link whose href is absent or
empty is skipped and the next relation checked; when no relation yields a
non-empty link the NONE variant is returned. When several relations carry
non-empty links, the earliest in that order wins. -/
theorem readState_link_priority (parse : String → Option Json)
    (resp : HttpResponse) (doc : Json) (fd : String → Deployment)
    (fc : String → Stop) (hok : resp.performOk = true)
    (hst : resp.status = 200) (hp : parse resp.payload = some doc) :
    (linkHref doc "deploymentBase" ≠ "" →
      readState parse resp fd fc =
        State.update (fd (linkHref doc "deploymentBase"))) ∧
    (linkHref doc "deploymentBase" = "" → linkHref doc "configData" ≠ "" →
      readState parse resp fd fc =
        State.register { url := linkHref doc "configData" }) ∧
    (linkHref doc "deploymentBase" = "" → linkHref doc "configData" = "" →
      linkHref doc "cancelAction" ≠ "" →
      readState parse resp fd fc =
        State.cancel (fc (linkHref doc "cancelAction"))) ∧
    (linkHref doc "deploymentBase" = "" → linkHref doc "configData" = "" →
      linkHref doc "cancelAction" = "" →
      readState parse resp fd fc = State.none) ∧
    (∀ rel, ((doc.get "_links").get rel).get "href" = Json.null ∨
        ((doc.get "_links").get rel).get "href" = Json.str "" →
      linkHref doc rel = "") := by
  have hdoc : fetchDoc parse resp = doc := by
    simp [fetchDoc, hok, hst, hp]
  refine ⟨?_, ?_, ?_, ?_, ?_⟩
  · intro h1
    simp [readState, hok, hdoc, readStateFromDoc, h1]
  · intro h1 h2
    simp [readState, hok, hdoc, readStateFromDoc, h1, h2]
  · intro h1 h2 h3
    simp [readState, hok, hdoc, readStateFromDoc, h1, h2, h3]
  · intro h1 h2 h3
    simp [readState, hok, hdoc, readStateFromDoc, h1, h2, h3]
  · intro rel h
    cases h with
    | inl h => simp [linkHref, h, Json.asStrOr]
    | inr h => simp [linkHref, h, Json.asStrOr]

/-- Witness for C1: a poll document carrying both a deploymentBase link
and a configData link resolves to the UPDATE variant. -/
theorem readState_link_priority_witness :
    readState
      (fun _ => some (Json.obj [("_links", Json.obj
        [("deploymentBase", Json.obj [("href", Json.str "D")]),
         ("configData", Json.obj [("href", Json.str "C")])])]))
      { performOk := true, status := 200, payload := "x" }
      (fun h => { id := h, download := "", update := "", chunks := [] })
      (fun h => { id := h }) =
      State.update { id := "D", download := "", update := "", chunks := [] } :=
  (readState_link_priority
    (fun _ => some (Json.obj [("_links", Json.obj
      [("deploymentBase", Json.obj [("href", Json.str "D")]),
       ("configData", Json.obj [("href", Json.str "C")])])]))
    { performOk := true, status := 200, payload := "x" }
    (Json.obj [("_links", Json.obj
      [("deploymentBase", Json.obj [("href", Json.str "D")]),
       ("configData", Json.obj [("href", Json.str "C")])])])
    (fun h => { id := h, download := "", update := "", chunks := [] })
    (fun h => { id := h }) rfl rfl rfl).1 (by decide)

/-- C2 evidence: a deployment or cancel fetch whose payload fails to
deserialize (transport fine, status 200) does not fail: it silently
returns the object decoded from the cleared document; a fetch whose
transport call fails does the same even for a decodable payload. -/
theorem readFetch_swallows_decode_errors :
    readDeployment (fun _ => Option.none)
      { performOk := true, status := 200, payload := "not json" } =
      { id := "", download := "", update := "", chunks := [] } ∧
    readCancel (fun _ => Option.none)
      { performOk := true, status := 200, payload := "not json" } =
      { id := "" } ∧
    readDeployment (fun _ => some (Json.obj [("id", Json.str "42")]))
      { performOk := false, status := 500, payload := "x" } =
      { id := "", download := "", update := "", chunks := [] } :=
  ⟨rfl, rfl, rfl⟩

/-- C3: each of the eight feedback operations composes exactly its
canonical pair of execution phase and finished outcome in the staged
status object, for every deployment, stop and details list. -/
theorem report_phase_outcome_pairs (c : HawkbitClient) (d : Deployment)
    (s : Stop) (done total : Nat) (details : List String) :
    ((((reportProgress c d done total details).2.get "status").get "execution"),
      ((((reportProgress c d done total details).2.get "status").get
        "result").get "finished")) =
      (Json.str "proceeding", Json.str "none") ∧
    ((((reportScheduled c d details).2.get "status").get "execution"),
      ((((reportScheduled c d details).2.get "status").get "result").get
        "finished")) = (Json.str "scheduled", Json.str "none") ∧
    ((((reportResumed c d details).2.get "status").get "execution"),
      ((((reportResumed c d details).2.get "status").get "result").get
        "finished")) = (Json.str "resumed", Json.str "none") ∧
    ((((reportCanceled c d details).2.get "status").get "execution"),
      ((((reportCanceled c d details).2.get "status").get "result").get
        "finished")) = (Json.str "canceled", Json.str "none") ∧
    ((((reportComplete c d true details).2.get "status").get "execution"),
      ((((reportComplete c d true details).2.get "status").get "result").get
        "finished")) = (Json.str "closed", Json.str "success") ∧
    ((((reportComplete c d false details).2.get "status").get "execution"),
      ((((reportComplete c d false details).2.get "status").get "result").get
        "finished")) = (Json.str "closed", Json.str "failure") ∧
    ((((reportCancelAccepted c s details).2.get "status").get "execution"),
      ((((reportCancelAccepted c s details).2.get "status").get "result").get
        "finished")) = (Json.str "closed", Json.str "success") ∧
    ((((reportCancelRejected c s details).2.get "status").get "execution"),
      ((((reportCancelRejected c s details).2.get "status").get "result").get
        "finished")) = (Json.str "closed", Json.str "failure") :=
  ⟨rfl, rfl, rfl, rfl, rfl, rfl, rfl, rfl⟩

/-- C10: the feedback request reportProgress composes is independent of
its done and total arguments: any two progress pairs give the identical
request and staged document. -/
theorem reportProgress_ignores_progress (c : HawkbitClient) (d : Deployment)
    (done₁ total₁ done₂ total₂ : Nat) (details : List String) :
    reportProgress c d done₁ total₁ details =
      reportProgress c d done₂ total₂ details := rfl

/-- Counterexample for C4 as stated: on status 200 with a handler that
raises, the download call propagates the exception with the handler
invoked but without ever reaching the end call, so the transport handle
is not released. -/
theorem download_handler_raise_counterexample :
    (download (HawkbitClient.make "b" "t" "c" "s")
      { filename := "f", size := 0, hashes := [], links := [("download", "u")] }
      "download" 200 (Except.error ())).2 =
      DownloadOutcome.handlerRaised () ∧
    DownloadEvent.handlerInvoked ∈
      (download (HawkbitClient.make "b" "t" "c" "s")
        { filename := "f", size := 0, hashes := [], links := [("download", "u")] }
        "download" 200 (Except.error ())).1 ∧
    DownloadEvent.httpEnd ∉
      (download (HawkbitClient.make "b" "t" "c" "s")
        { filename := "f", size := 0, hashes := [], links := [("download", "u")] }
        "download" 200 (Except.error ())).1 := by
  decide

/-- C4 amended: download releases the transport handle whenever the
handler returns normally or the status is not success; on a non-success
status it fails with DownloadError carrying that code, the end call
happening before the throw and the handler never being invoked; but when
the handler raises, the exception propagates without the handle being
released. -/
theorem download_cleanup_discipline {E : Type} (c : HawkbitClient)
    (a : Artifact) (linkType : String) (code : Int) (hr : Except E Unit)
    (href : String) (hlink : a.links.lookup linkType = some href) :
    (code ≠ 200 →
      download c a linkType code hr =
        ([DownloadEvent.httpBegin href,
          DownloadEvent.addHeader "Authorization" c.authToken,
          DownloadEvent.httpGet, DownloadEvent.httpEnd],
         DownloadOutcome.downloadFailed code) ∧
      DownloadEvent.handlerInvoked ∉ (download c a linkType code hr).1) ∧
    (hr = Except.ok () →
      DownloadEvent.httpEnd ∈ (download c a linkType code hr).1) ∧
    (∀ e, hr = Except.error e → code = 200 →
      (download c a linkType code hr).2 = DownloadOutcome.handlerRaised e ∧
      DownloadEvent.httpEnd ∉ (download c a linkType code hr).1) := by
  refine ⟨?_, ?_, ?_⟩
  · intro hcode
    constructor
    · simp [download, hlink, hcode]
    · simp [download, hlink, hcode]
  · intro hok
    subst hok
    by_cases hcode : code = 200
    · simp [download, hlink, hcode]
    · simp [download, hlink, hcode]
  · intro e herr hcode
    subst herr
    constructor
    · simp [download, hlink, hcode]
    · simp [download, hlink, hcode]

/-- Witness for C4 amended: a 404 download on an artifact with a download
link ends the handle and fails with the code, the handler never invoked. -/
theorem download_cleanup_discipline_witness :
    download (HawkbitClient.make "b" "t" "c" "s")
      { filename := "f", size := 0, hashes := [], links := [("download", "u")] }
      "download" 404 (Except.ok () : Except Unit Unit) =
      ([DownloadEvent.httpBegin "u",
        DownloadEvent.addHeader "Authorization"
          (HawkbitClient.make "b" "t" "c" "s").authToken,
        DownloadEvent.httpGet, DownloadEvent.httpEnd],
       DownloadOutcome.downloadFailed 404) :=
  ((download_cleanup_discipline (HawkbitClient.make "b" "t" "c" "s")
    { filename := "f", size := 0, hashes := [], links := [("download", "u")] }
    "download" 404 (Except.ok () : Except Unit Unit) "u" (by decide)).1 (by decide)).1

/-- C5: a relation absent from the artifact's link mapping makes download
fail with the missing-link throw synchronously, before any transport
event; a present relation resolves to its mapped URL, which is where the
transport begins; the default relation is the download relation. -/
theorem download_link_resolution {E : Type} (c : HawkbitClient)
    (a : Artifact) (linkType : String) (code : Int) (hr : Except E Unit) :
    (a.links.lookup linkType = Option.none →
      download c a linkType code hr = ([], DownloadOutcome.missingLink)) ∧
    (∀ href, a.links.lookup linkType = some href →
      (download c a linkType code hr).1.head? =
        some (DownloadEvent.httpBegin href)) ∧
    downloadDefault c a code hr = download c a "download" code hr := by
  refine ⟨?_, ?_, rfl⟩
  · intro h
    simp [download, h]
  · intro href h
    by_cases hcode : code = 200
    · cases hr <;> simp [download, h, hcode]
    · simp [download, h, hcode]

/-- Witness for C5: an artifact without links fails with the missing-link
throw and an empty transport trace. -/
theorem download_link_resolution_witness :
    download (HawkbitClient.make "b" "t" "c" "s")
      { filename := "f", size := 0, hashes := [], links := [] }
      "download" 200 (Except.ok () : Except Unit Unit) = ([], DownloadOutcome.missingLink) :=
  (download_link_resolution (HawkbitClient.make "b" "t" "c" "s")
    { filename := "f", size := 0, hashes := [], links := [] }
    "download" 200 (Except.ok () : Except Unit Unit)).1 (by decide)

/-- Counterexample for C8 as stated: the artifact download request is
sent (the GET happens) without the Accept header ever being set on it. -/
theorem download_missing_accept_counterexample :
    DownloadEvent.httpGet ∈
      (download (HawkbitClient.make "b" "t" "c" "s")
        { filename := "f", size := 0, hashes := [], links := [("download", "u")] }
        "download" 200 (Except.ok () : Except Unit Unit)).1 ∧
    DownloadEvent.addHeader "Accept" "application/hal+json" ∉
      (download (HawkbitClient.make "b" "t" "c" "s")
        { filename := "f", size := 0, hashes := [], links := [("download", "u")] }
        "download" 200 (Except.ok () : Except Unit Unit)).1 := by
  decide

/-- C8 amended: every request built through initHttpHandle (the poll, the
deployment and cancel fetches, the feedback POSTs and the registration
PUT) carries the Accept, Content-Type and Authorization headers; the
constructor derives the Authorization value TargetToken followed by the
security token; the download request carries the Authorization header but
never an Accept header. -/
theorem headers_on_requests {E : Type} (b t i tok : String) (c : HawkbitClient)
    (m : HttpMethod) (url href href2 : String) (d : Deployment) (s : Stop)
    (reg : Registration) (data : List (String × String)) (mode : MergeMode)
    (details : List String) (a : Artifact) (linkType : String) (code : Int)
    (hr : Except E Unit) (exec fin : String) :
    (HawkbitClient.make b t i tok).authToken = "TargetToken " ++ tok ∧
    carriesStandardHeaders c (readStateRequest c) ∧
    carriesStandardHeaders c (readDeploymentRequest c href) ∧
    carriesStandardHeaders c (readCancelRequest c href2) ∧
    carriesStandardHeaders c ((sendFeedbackDeployment c d exec fin details).1) ∧
    carriesStandardHeaders c ((sendFeedbackStop c s exec fin details).1) ∧
    carriesStandardHeaders c ((updateRegistration c reg data mode details).1) ∧
    carriesStandardHeaders c (initHttpHandle c m url) ∧
    (∀ href3, a.links.lookup linkType = some href3 →
      DownloadEvent.addHeader "Authorization" c.authToken ∈
        (download c a linkType code hr).1 ∧
      ∀ v, DownloadEvent.addHeader "Accept" v ∉
        (download c a linkType code hr).1) := by
  refine ⟨rfl, ?_, ?_, ?_, ?_, ?_, ?_, ?_, ?_⟩
  · simp [carriesStandardHeaders, carriesHeader, readStateRequest,
      initHttpHandle]
  · simp [carriesStandardHeaders, carriesHeader, readDeploymentRequest,
      initHttpHandle]
  · simp [carriesStandardHeaders, carriesHeader, readCancelRequest,
      initHttpHandle]
  · simp [carriesStandardHeaders, carriesHeader, sendFeedbackDeployment,
      initHttpHandle]
  · simp [carriesStandardHeaders, carriesHeader, sendFeedbackStop,
      initHttpHandle]
  · simp [carriesStandardHeaders, carriesHeader, updateRegistration,
      initHttpHandle]
  · simp [carriesStandardHeaders, carriesHeader, initHttpHandle]
  · intro href3 h
    constructor
    · by_cases hcode : code = 200
      · cases hr <;> simp [download, h, hcode]
      · simp [download, h, hcode]
    · intro v
      by_cases hcode : code = 200
      · cases hr <;> simp [download, h, hcode]
      · simp [download, h, hcode]

/-- Witness for C8 amended: on a concrete client the poll request carries
the three headers and a concrete download trace carries its Authorization
header. -/
theorem headers_on_requests_witness :
    carriesStandardHeaders (HawkbitClient.make "b" "t" "c" "s")
      (readStateRequest (HawkbitClient.make "b" "t" "c" "s")) ∧
    DownloadEvent.addHeader "Authorization"
        (HawkbitClient.make "b" "t" "c" "s").authToken ∈
      (download (HawkbitClient.make "b" "t" "c" "s")
        { filename := "f", size := 0, hashes := [], links := [("download", "u")] }
        "download" 200 (Except.ok () : Except Unit Unit)).1 :=
  ⟨(headers_on_requests "b" "t" "c" "s" (HawkbitClient.make "b" "t" "c" "s")
      HttpMethod.get "u" "u" "u"
      { id := "", download := "", update := "", chunks := [] } { id := "" }
      { url := "" } [] MergeMode.merge []
      { filename := "f", size := 0, hashes := [], links := [("download", "u")] }
      "download" 200 (Except.ok () : Except Unit Unit) "closed" "success").2.1,
   ((headers_on_requests "b" "t" "c" "s" (HawkbitClient.make "b" "t" "c" "s")
      HttpMethod.get "u" "u" "u"
      { id := "", download := "", update := "", chunks := [] } { id := "" }
      { url := "" } [] MergeMode.merge []
      { filename := "f", size := 0, hashes := [], links := [("download", "u")] }
      "download" 200 (Except.ok () : Except Unit Unit) "closed"
      "success").2.2.2.2.2.2.2.2 "u" (by decide)).1⟩

/-- C9: decoding a hashes object keeps exactly the string-valued members,
key and value preserved, and silently skips every member whose value is
not a string; this is the decoding the artifact reader applies to the
hashes field; on the object with sha1 bound to a string and size bound to
a number only the sha1 binding remains. -/
theorem toMap_string_entries (fields : List (String × Json))
    (hnd : (fields.map Prod.fst).Nodup) :
    toMap (Json.obj fields) =
      (fields.filterMap fun p =>
        match p.2 with
        | .str s => some (p.1, s)
        | _ => none) ∧
    (∀ k v, (k, v) ∈ toMap (Json.obj fields) ↔ (k, Json.str v) ∈ fields) ∧
    (∀ o : Json, (artifactOfJson o).hashes = toMap (o.get "hashes")) ∧
    toMap (Json.obj [("sha1", Json.str "abc"), ("size", Json.num 123)]) =
      [("sha1", "abc")] := by
  have h1 : toMap (Json.obj fields) =
      fields.filterMap fun p =>
        match p.2 with
        | .str s => some (p.1, s)
        | _ => none := by
    show fields.foldl _ [] = _
    rw [toMap_foldl fields [] hnd (by simp)]
    simp
  refine ⟨h1, ?_, fun _ => rfl, by decide⟩
  intro k v
  rw [h1, List.mem_filterMap]
  constructor
  · rintro ⟨p, hp, hmatch⟩
    obtain ⟨pk, pv⟩ := p
    cases pv <;> simp_all
  · intro hmem
    exact ⟨(k, .str v), hmem, rfl⟩

/-- Witness for C9: the example object decodes to the sha1 binding only. -/
theorem toMap_string_entries_witness :
    toMap (Json.obj [("sha1", Json.str "abc"), ("size", Json.num 123)]) =
      [("sha1", "abc")] :=
  (toMap_string_entries [("sha1", Json.str "abc"), ("size", Json.num 123)]
    (by decide)).2.2.2

/-- C7: updateRegistration composes a body whose mode field follows the
merge mode, whose data object is the supplied mapping copied verbatim and
whose status closes with result success, and submits it via PUT to the
registration URL. -/
theorem updateRegistration_request_shape (c : HawkbitClient)
    (reg : Registration) (data : List (String × String)) (mode : MergeMode)
    (details : List String) (hnd : (data.map Prod.fst).Nodup) :
    (updateRegistration c reg data mode details).1.method = HttpMethod.put ∧
    (updateRegistration c reg data mode details).1.url = reg.url ∧
    (updateRegistration c reg data mode details).1.body =
      some (updateRegistrationBody data mode details).serialize ∧
    updateRegistrationBody data mode details =
      Json.obj
        [("mode", Json.str (mergeModeString mode)),
         ("data", Json.obj (data.map fun e => (e.1, Json.str e.2))),
         ("status", Json.obj
           [("details", Json.arr (details.map Json.str)),
            ("execution", Json.str "closed"),
            ("result", Json.obj [("finished", Json.str "success")])])] := by
  refine ⟨rfl, rfl, rfl, ?_⟩
  have h2 : updateRegistrationBody data mode details =
      ((((Json.null.setField "mode" (Json.str (mergeModeString mode))).setField
          "data" (Json.obj (data.map fun e => (e.1, Json.str e.2)))).set2
          "status" "details" (Json.arr (details.map Json.str))).set2
          "status" "execution" (Json.str "closed")).set3
          "status" "result" "finished" (Json.str "success") := by
    simp only [updateRegistrationBody]
    rw [foldl_setField_data data
      (Json.null.setField "mode" (Json.str (mergeModeString mode)))
      (Json.obj []),
      foldl_setField_fresh data [] hnd (by simp)]
    simp
  rw [h2]
  rfl

/-- Witness for C7: the registration scenario with one data entry, merge
mode and one detail composes exactly the documented body. -/
theorem updateRegistration_request_shape_witness :
    updateRegistrationBody [("model", "X1")] MergeMode.merge ["note"] =
      Json.obj
        [("mode", Json.str "merge"),
         ("data", Json.obj [("model", Json.str "X1")]),
         ("status", Json.obj
           [("details", Json.arr [Json.str "note"]),
            ("execution", Json.str "closed"),
            ("result", Json.obj [("finished", Json.str "success")])])] :=
  (updateRegistration_request_shape (HawkbitClient.make "b" "t" "c" "s")
    { url := "http://reg" } [("model", "X1")] MergeMode.merge ["note"]
    (by decide)).2.2.2

/-- C6: reportComplete with success false and the single detail disk full
composes exactly the documented feedback body and targets the deployment
feedback URL derived from the deployment id. -/
theorem reportComplete_failure_request (c : HawkbitClient) (d : Deployment)
    (h : jsonEscape d.id = d.id) :
    (reportComplete c d false ["disk full"]).1.method = HttpMethod.post ∧
    (reportComplete c d false ["disk full"]).1.url =
      c.baseUrl ++ "/" ++ c.tenantName ++ "/controller/v1/" ++
        c.controllerId ++ "/deploymentBase/" ++ d.id ++ "/feedback" ∧
    (reportComplete c d false ["disk full"]).1.body =
      some ("\x7b\"id\":\"" ++ d.id ++
        "\",\"status\":\x7b\"details\":[\"disk full\"],\"execution\":\"closed\",\"result\":\x7b\"finished\":\"failure\"\x7d\x7d\x7d") := by
  refine ⟨rfl, rfl, ?_⟩
  show some (sendFeedbackBody d.id "closed" "failure" ["disk full"]).serialize = _
  have hbody : sendFeedbackBody d.id "closed" "failure" ["disk full"] =
      Json.obj [("id", Json.str d.id),
        ("status", Json.obj
          [("details", Json.arr [Json.str "disk full"]),
           ("execution", Json.str "closed"),
           ("result", Json.obj [("finished", Json.str "failure")])])] := rfl
  rw [hbody]
  apply congrArg some
  simp only [Json.serialize, Json.serializeObj, Json.serializeArr]
  rw [h]
  rw [show jsonEscape "id" = "id" from by decide,
    show jsonEscape "status" = "status" from by decide,
    show jsonEscape "details" = "details" from by decide,
    show jsonEscape "execution" = "execution" from by decide,
    show jsonEscape "result" = "result" from by decide,
    show jsonEscape "finished" = "finished" from by decide,
    show jsonEscape "closed" = "closed" from by decide,
    show jsonEscape "failure" = "failure" from by decide,
    show jsonEscape "disk full" = "disk full" from by decide]
  apply String.ext
  simp [String.data_append, List.append_assoc]

/-- Witness for C6: a deployment with id 42 composes the documented body
at the documented feedback URL. -/
theorem reportComplete_failure_request_witness :
    (reportComplete (HawkbitClient.make "http://hb" "t" "dev" "s")
      { id := "42", download := "", update := "", chunks := [] } false
      ["disk full"]).1.body =
      some ("\x7b\"id\":\"" ++ "42" ++
        "\",\"status\":\x7b\"details\":[\"disk full\"],\"execution\":\"closed\",\"result\":\x7b\"finished\":\"failure\"\x7d\x7d\x7d") :=
  (reportComplete_failure_request (HawkbitClient.make "http://hb" "t" "dev" "s")
    { id := "42", download := "", update := "", chunks := [] }
    (by decide)).2.2

end Hawkbit
